import Mathlib

/-! web-app: the route table of `cmd/main.go` and `cmd/main_test.go`

The program is two functions, `main` and `setupRouter`, which build a gin engine with
`gin.Default()` and register static GET routes on it.  What a request is answered with is
decided by the engine: the per-method radix tree (`tree.go`), `handleHTTPRequest`
(`gin.go`), the renderers behind `c.String` and `c.JSON`, and the response writer.  Those
library parts are embedded here next to the two functions of the repository, as they
stand in gin 1.10 (the repository pins no version in the files at hand; the parts used
have been stable across the 1.x releases).

Conventions of the embedding.

* A Go `string` is a list of bytes (`GoString`); slicing `s[a:b]` is `(s.drop a).take (b - a)`.
* A panic and an exhausted recursion budget are values of `Fault`; every operation that can
  panic returns `Except Fault _`.
* The radix tree is the fragment for static routes: a pattern holding `:` or `*` is reported
  as `Fault.wildcardRoute` instead of building parameter nodes, so `wildChild` is false on
  every node and the parameter branches of `getValue` are not present.
* Engine switches that `gin.New` leaves off and that neither function turns on
  (`RedirectFixedPath`, `UseRawPath`, `RemoveExtraSlash`) are left out with their branches;
  `RedirectTrailingSlash` (on) and `HandleMethodNotAllowed` (off) are kept as fields.
* A request is its method, `URL.Path`, `URL.RawQuery` and header; `URL.RawPath` is empty.
* `http.Redirect` belongs to net/http: the embedding records the call (status code and the
  rewritten request URL whose `String()` is passed) and does not render it.  The Location
  header, which net/http derives from that string (it applies `path.Clean` to a local
  reference), and the `text/html` body holding it are therefore not part of a recorded
  redirect; for a rewritten path that is already clean, the five redirects of `main` for a
  request without `X-Forwarded-Prefix` among them, Location is that path and the query.
* Everything written to `gin.DefaultWriter` while serving is collected in a list of
  `LogEntry`; timestamps, latency and client address are not part of an entry.
-/

namespace WebApp

/-! ## Go strings -/

/-- A Go string: a sequence of bytes. -/
abbrev GoString := List Nat

/-- The bytes (UTF-8) of a string literal of the source. -/
def bytes (s : String) : GoString := s.toUTF8.data.toList.map UInt8.toNat

/-- What goes wrong: a Go panic, an exhausted recursion budget of the embedding, or a
route pattern with a wildcard, which lies outside the embedded fragment of the tree. -/
inductive Fault where
  | panic (msg : String)
  | outOfFuel
  | wildcardRoute
  deriving DecidableEq, Repr

/-- Go `s[len(s)-1]`, for a non-empty string. -/
def lastChar (s : GoString) : Option Nat := s.getLast?

/-- Go `strings.Split(s, sep)` for a one-byte separator. -/
def splitByte (sep : Nat) : GoString → List GoString
  | [] => [[]]
  | b :: rest =>
    if b = sep then [] :: splitByte sep rest
    else
      match splitByte sep rest with
      | [] => [[b]]
      | seg :: segs => (b :: seg) :: segs

/-- Go `strings.Join(elems, sep)`. -/
def joinWith (sep : GoString) : List GoString → GoString
  | [] => []
  | [e] => e
  | e :: rest => e ++ sep ++ joinWith sep rest

/-- One element of a path handed to `path.Clean`: empty elements and `.` are dropped,
`..` removes the element before it, or is kept when the path is not rooted and there is
nothing left to remove. The stack holds the kept elements, last one first. -/
def cleanStep (rooted : Bool) (stack : List GoString) (elem : GoString) : List GoString :=
  if elem = [] ∨ elem = [46] then stack
  else if elem = [46, 46] then
    match stack with
    | [] => if rooted then [] else [[46, 46]]
    | top :: below => if top = [46, 46] then elem :: top :: below else below
  else elem :: stack

/-- Go `path.Clean`: the shortest path name equivalent to `p` by purely lexical
processing. -/
def pathClean (p : GoString) : GoString :=
  let rooted := p.head? = some 47
  let elems := ((splitByte 47 p).foldl (cleanStep rooted) []).reverse
  let out := (if rooted then [47] else []) ++ joinWith [47] elems
  if out = [] then [46] else out

/-- Go `path.Join`: the non-empty elements joined with slashes, then cleaned. -/
def pathJoin (elems : List GoString) : GoString :=
  match elems.filter (fun e => e ≠ []) with
  | [] => []
  | es => pathClean (joinWith [47] es)

/-- Function `joinPaths` of gin `utils.go`. -/
def joinPaths (absolutePath relativePath : GoString) : GoString :=
  if relativePath = [] then absolutePath
  else
    let finalPath := pathJoin [absolutePath, relativePath]
    if lastChar relativePath = some 47 ∧ lastChar finalPath ≠ some 47 then finalPath ++ [47]
    else finalPath

/-! ## net/http: requests, headers, the response writer -/

/-- A header map, keys in canonical form. -/
abbrev Header := List (GoString × GoString)

/-- Go `Header.Get`: the value stored under the key, or the empty string. -/
def Header.Get (h : Header) (key : GoString) : GoString :=
  match h.find? (fun kv => kv.1 = key) with
  | some kv => kv.2
  | none => []

/-- Go `Header.Set` and `h[key] = value`: replaces what is stored under the key. -/
def Header.Set (h : Header) (key value : GoString) : Header :=
  h.filter (fun kv => kv.1 ≠ key) ++ [(key, value)]

/-- The fields of `url.URL` a request to this server carries. -/
structure URL where
  Path : GoString
  RawQuery : GoString
  deriving DecidableEq, Repr

/-- The fields of `http.Request` the engine reads. -/
structure Request where
  Method : GoString
  URL : URL
  Header : Header
  deriving DecidableEq, Repr

/-- What the client is sent: a response written through the gin writer, or the call
`http.Redirect(w, req, URL.String(), Code)` that net/http renders. The second form holds
the arguments of the call, not the Location header and body net/http makes of them. -/
inductive Response where
  | wrote (Code : Nat) (Header : Header) (Body : GoString)
  | redirected (Code : Nat) (URL : URL)
  deriving DecidableEq, Repr

/-- Status code of a response. -/
def Response.Code : Response → Nat
  | .wrote code _ _ => code
  | .redirected code _ => code

/-- Content-Type header of a response written through the gin writer. -/
def Response.ContentType : Response → Option GoString
  | .wrote _ h _ => some (h.Get (bytes "Content-Type"))
  | .redirected _ _ => none

/-- Body of a response written through the gin writer. -/
def Response.Body : Response → Option GoString
  | .wrote _ _ body => some body
  | .redirected _ _ => none

/-- A line on `gin.DefaultWriter`: the access line of the Logger middleware, or the debug
line of `redirectRequest`. -/
inductive LogEntry where
  | access (StatusCode : Nat) (Method Path : GoString)
  | redirecting (code : Nat) (path : GoString) (target : URL)
  deriving DecidableEq, Repr

/-- The `responseWriter` of gin over the `http.ResponseWriter` it wraps: the pending
status, whether the header has been sent (`size` is `none` for `noWritten`), the live
header map, and what has been sent. -/
structure responseWriter where
  header : Header
  status : Nat
  size : Option Nat
  sentCode : Nat
  sentHeader : Header
  body : GoString
  redirect : Option (Nat × URL)
  deriving DecidableEq, Repr

/-- Method `reset` of the writer: status 200 (`defaultStatus`), nothing written. -/
def responseWriter.reset : responseWriter :=
  { header := [], status := 200, size := none, sentCode := 0, sentHeader := [], body := [],
    redirect := none }

/-- Method `Written`. -/
def responseWriter.Written (w : responseWriter) : Bool := w.size.isSome

/-- Method `WriteHeader`: records the code unless the header has been sent. -/
def responseWriter.WriteHeader (w : responseWriter) (code : Nat) : responseWriter :=
  if 0 < code ∧ w.status ≠ code then
    if w.Written then w else { w with status := code }
  else w

/-- Method `WriteHeaderNow`: sends status line and header once. -/
def responseWriter.WriteHeaderNow (w : responseWriter) : responseWriter :=
  if w.Written then w
  else { w with size := some 0, sentCode := w.status, sentHeader := w.header }

/-- Method `Write`: sends the header if needed, then the data. -/
def responseWriter.Write (w : responseWriter) (data : GoString) : responseWriter :=
  let w := w.WriteHeaderNow
  { w with body := w.body ++ data, size := w.size.map (fun n => n + data.length) }

/-- The response a finished writer stands for. -/
def responseWriter.result (w : responseWriter) : Response :=
  match w.redirect with
  | some (code, u) => .redirected code u
  | none => .wrote w.sentCode w.sentHeader w.body

/-! ## gin: context and handlers -/

/-- The part of `gin.Context` the handlers and the engine touch: the request, the writer,
and what has been printed to `gin.DefaultWriter`. -/
structure Context where
  Request : Request
  writermem : responseWriter
  out : List LogEntry
  deriving DecidableEq, Repr

/-- A `gin.HandlerFunc`. A handler either returns without calling `c.Next()`, after which
the rest of the chain runs, or it is a middleware given the rest of the chain as the
meaning of its call to `c.Next()`. -/
inductive HandlerFunc where
  | handler (f : Context → Context)
  | middleware (f : (Context → Context) → Context → Context)

/-- A `gin.HandlersChain`; the nil chain is the empty list. -/
abbrev HandlersChain := List HandlerFunc

/-- Method `Next` of the context: runs the pending handlers of the chain in order. -/
def runChain : HandlersChain → Context → Context
  | [], c => c
  | .handler f :: rest, c => runChain rest (f c)
  | .middleware f :: rest, c => f (runChain rest) c

/-- Function `bodyAllowedForStatus` of gin `context.go`. -/
def bodyAllowedForStatus (status : Nat) : Bool :=
  if 100 ≤ status ∧ status ≤ 199 then false
  else if status = 204 then false
  else if status = 304 then false
  else true

/-- Function `writeContentType` of gin `render`: sets Content-Type unless one is set. -/
def writeContentType (w : responseWriter) (value : GoString) : responseWriter :=
  if w.header.Get (bytes "Content-Type") = [] then
    { w with header := w.header.Set (bytes "Content-Type") value }
  else w

/-- Method `Render` of the context, for a renderer given by its content type and the bytes
it writes. -/
def Context.Render (c : Context) (code : Nat) (contentType data : GoString) : Context :=
  let w := c.writermem.WriteHeader code
  if !bodyAllowedForStatus code then
    { c with writermem := (writeContentType w contentType).WriteHeaderNow }
  else
    { c with writermem := (writeContentType w contentType).Write data }

/-- Value `plainContentType` of gin `render/text.go`. -/
def plainContentType : GoString := bytes "text/plain; charset=utf-8"

/-- Value `jsonContentType` of gin `render/json.go`. -/
def jsonContentType : GoString := bytes "application/json; charset=utf-8"

/-- Method `String` of the context, called without format arguments: the format is
written as it is. -/
def Context.String (c : Context) (code : Nat) (format : GoString) : Context :=
  c.Render code plainContentType format

/-! ### encoding/json for `gin.H` -/

/-- A value stored in a `gin.H`: a string, a boolean or nil. -/
inductive Any where
  | str (s : GoString)
  | bool (b : Bool)
  | null
  deriving DecidableEq, Repr

/-- A `gin.H` literal: its keys, which are distinct, with their values. -/
abbrev H := List (GoString × Any)

/-- Lower-case hexadecimal digit. -/
def hexDigit (n : Nat) : Nat := if n < 10 then 48 + n else 87 + n

/-- How `encoding/json` writes one byte of a string with HTML escaping on: quote and
backslash get a backslash, control bytes their short or `\u00xx` form, and `<`, `>`, `&`
the `\u00xx` form. Bytes from 0x80 on are copied. -/
def jsonByte (b : Nat) : GoString :=
  if b = 34 ∨ b = 92 then [92, b]
  else if b = 8 then [92, 98]
  else if b = 12 then [92, 102]
  else if b = 10 then [92, 110]
  else if b = 13 then [92, 114]
  else if b = 9 then [92, 116]
  else if b < 32 ∨ b = 60 ∨ b = 62 ∨ b = 38 then [92, 117, 48, 48, hexDigit (b / 16), hexDigit (b % 16)]
  else [b]

/-- A JSON string literal as `encoding/json` writes it. -/
def jsonString (s : GoString) : GoString := [34] ++ s.flatMap jsonByte ++ [34]

/-- A value of a `gin.H` as `encoding/json` writes it. -/
def jsonAny : Any → GoString
  | .str s => jsonString s
  | .bool true => bytes "true"
  | .bool false => bytes "false"
  | .null => bytes "null"

/-- Byte-wise order of Go strings. -/
def strLess : GoString → GoString → Bool
  | [], [] => false
  | [], _ :: _ => true
  | _ :: _, [] => false
  | a :: as, b :: bs => if a < b then true else if b < a then false else strLess as bs

/-- Insertion of a member into a list of members sorted by key. -/
def insertMember (kv : GoString × Any) : H → H
  | [] => [kv]
  | x :: rest => if strLess kv.1 x.1 then kv :: x :: rest else x :: insertMember kv rest

/-- Go `json.Marshal` of a map: the members in the order of their keys, without white
space. -/
def jsonMarshal (obj : H) : GoString :=
  let members := (obj.foldr insertMember []).map (fun kv => jsonString kv.1 ++ [58] ++ jsonAny kv.2)
  [123] ++ joinWith [44] members ++ [125]

/-- Method `JSON` of the context. -/
def Context.JSON (c : Context) (code : Nat) (obj : H) : Context :=
  c.Render code jsonContentType (jsonMarshal obj)

/-! ### middleware of `gin.Default` -/

/-- The path the Logger prints: the request path, with the raw query when there is one. -/
def logPath (u : URL) : GoString :=
  if u.RawQuery ≠ [] then u.Path ++ [63] ++ u.RawQuery else u.Path

/-- The middleware `gin.Logger()`: after the rest of the chain it prints one access line. -/
def Logger : HandlerFunc :=
  .middleware fun next c =>
    let path := logPath c.Request.URL
    let c := next c
    { c with out := c.out ++ [LogEntry.access c.writermem.status c.Request.Method path] }

/-- The middleware `gin.Recovery()`: runs the rest of the chain; none of the handlers
panics, so its recover branch is never entered. -/
def Recovery : HandlerFunc :=
  .middleware fun next c => next c

/-! ## gin: the radix tree (`tree.go`), static routes -/

/-- Type `nodeType` of the tree. -/
inductive nodeType where
  | static
  | root
  | param
  | catchAll
  deriving DecidableEq, Repr

/-- Type `node` of the tree. The byte at position `i` of `indices` is the first byte of
the path of child `i`. -/
inductive node where
  | mk (path indices : GoString) (nType : nodeType) (priority : Nat) (children : List node)
      (handlers : HandlersChain) (fullPath : GoString)

/-- Field `path`. -/
def node.path : node → GoString
  | .mk p _ _ _ _ _ _ => p

/-- Field `indices`. -/
def node.indices : node → GoString
  | .mk _ i _ _ _ _ _ => i

/-- Field `nType`. -/
def node.nType : node → nodeType
  | .mk _ _ t _ _ _ _ => t

/-- Field `priority`. -/
def node.priority : node → Nat
  | .mk _ _ _ p _ _ _ => p

/-- Field `children`. -/
def node.children : node → List node
  | .mk _ _ _ _ cs _ _ => cs

/-- Field `handlers`. -/
def node.handlers : node → HandlersChain
  | .mk _ _ _ _ _ h _ => h

/-- Field `fullPath`. -/
def node.fullPath : node → GoString
  | .mk _ _ _ _ _ _ f => f

/-- The zero value of `node`. -/
def node.new : node := .mk [] [] .static 0 [] [] []

/-- Go `n.handlers != nil`. -/
def node.hasHandlers (n : node) : Bool := !n.handlers.isEmpty

/-- Function `longestCommonPrefix` of the tree. -/
def longestCommonPrefix : GoString → GoString → Nat
  | a :: as, b :: bs => if a = b then longestCommonPrefix as bs + 1 else 0
  | _, _ => 0

/-- Position of the first byte of `s` equal to `c`, as the index loops of the tree find it. -/
def indexByte (s : GoString) (c : Nat) : Option Nat :=
  match s with
  | [] => none
  | b :: rest => if b = c then some 0 else (indexByte rest c).map (fun i => i + 1)

/-- The scan of `findWildcard` after the start of a wildcard: its end and validity. -/
def wildcardEnd : GoString → Nat → Bool → Nat × Bool
  | [], e, valid => (e, valid)
  | c :: rest, e, valid =>
    if c = 47 then (e, valid)
    else if c = 58 ∨ c = 42 then wildcardEnd rest (e + 1) false
    else wildcardEnd rest (e + 1) valid

/-- Function `findWildcard` of the tree: the first wildcard segment of a path, where it
starts, and whether it holds a single `:` or `*`; `none` when the path has no wildcard. -/
def findWildcard (path : GoString) : Option (GoString × Nat × Bool) :=
  match path.findIdx? (fun c => c = 58 ∨ c = 42) with
  | none => none
  | some start =>
    let (e, valid) := wildcardEnd (path.drop (start + 1)) 0 true
    some ((path.drop start).take (1 + e), start, valid)

/-- Method `insertChild` of a node. Without a wildcard the node takes the path and the
handlers. The two checks on the form of a wildcard panic as in the tree; a well-formed
wildcard is outside the embedded fragment. -/
def node.insertChild (n : node) (path fullPath : GoString) (handlers : HandlersChain) :
    Except Fault node :=
  match findWildcard path with
  | some (wildcard, _, valid) =>
    if !valid then .error (.panic "only one wildcard per path segment is allowed")
    else if wildcard.length < 2 then
      .error (.panic "wildcards must be named with a non-empty name")
    else .error .wildcardRoute
  | none => .ok (.mk path n.indices n.nType n.priority n.children handlers fullPath)

/-- The loop of `incrementChildPrio` that moves a child towards the front: the position
it ends at, starting from `pos`. -/
def newPosition (cs : List node) (prio : Nat) : Nat → Nat
  | 0 => 0
  | k + 1 =>
    match cs.get? k with
    | some c => if c.priority < prio then newPosition cs prio k else k + 1
    | none => k + 1

/-- Method `incrementChildPrio` of a node: raises the priority of child `pos`, moves it in
front of the children of lower priority, reorders `indices` alike, and returns the new
position. -/
def node.incrementChildPrio (n : node) (pos : Nat) : Except Fault (node × Nat) :=
  match n.children.get? pos with
  | none => .error (.panic "index out of range")
  | some (.mk p i t prio cs h f) =>
    let child := node.mk p i t (prio + 1) cs h f
    let newPos := newPosition n.children (prio + 1) pos
    let children := n.children.take newPos ++ [child]
      ++ (n.children.drop newPos).take (pos - newPos) ++ n.children.drop (pos + 1)
    let indices :=
      if newPos ≠ pos then
        n.indices.take newPos ++ (n.indices.drop pos).take 1
          ++ (n.indices.drop newPos).take (pos - newPos) ++ n.indices.drop (pos + 1)
      else n.indices
    .ok (.mk n.path indices n.nType n.priority children n.handlers n.fullPath, newPos)

/-- The edge split of `addRoute`: the node keeps the common part of its path, and what it
was moves into a single child. -/
def node.splitEdge (n : node) (i : Nat) (path fullPath : GoString) (parentFullPathIndex : Nat) :
    node :=
  let child := node.mk (n.path.drop i) n.indices .static (n.priority - 1) n.children
    n.handlers n.fullPath
  .mk (path.take i) ((n.path.drop i).take 1) n.nType n.priority [child] []
    (fullPath.take (parentFullPathIndex + i))

/-- The walk of `addRoute`, one iteration per unit of the budget. The step over the slash
after a parameter node and the check against an existing wildcard child concern parameter
nodes and are not present. -/
def node.addRouteWalk : Nat → node → GoString → GoString → HandlersChain → Nat →
    Except Fault node
  | 0, _, _, _, _, _ => .error .outOfFuel
  | fuel + 1, n, path, fullPath, handlers, parentFullPathIndex => do
    let i := longestCommonPrefix path n.path
    let n := if i < n.path.length then n.splitEdge i path fullPath parentFullPathIndex else n
    if i < path.length then
      let path := path.drop i
      let c := path.headD 0
      match indexByte n.indices c with
      | some k =>
        let (n, k) ← n.incrementChildPrio k
        match n.children.get? k with
        | none => .error (.panic "index out of range")
        | some child =>
          let child ← node.addRouteWalk fuel child path fullPath handlers
            (parentFullPathIndex + n.path.length)
          .ok (.mk n.path n.indices n.nType n.priority (n.children.set k child) n.handlers
            n.fullPath)
      | none =>
        if c ≠ 58 ∧ c ≠ 42 ∧ n.nType ≠ .catchAll then
          let n := node.mk n.path (n.indices ++ [c]) n.nType n.priority
            (n.children ++ [node.mk [] [] .static 0 [] [] fullPath]) n.handlers n.fullPath
          let (n, k) ← n.incrementChildPrio (n.indices.length - 1)
          match n.children.get? k with
          | none => .error (.panic "index out of range")
          | some child =>
            let child ← child.insertChild path fullPath handlers
            .ok (.mk n.path n.indices n.nType n.priority (n.children.set k child) n.handlers
              n.fullPath)
        else n.insertChild path fullPath handlers
    else if n.hasHandlers then
      .error (.panic "handlers are already registered for path")
    else .ok (.mk n.path n.indices n.nType n.priority n.children handlers fullPath)

/-- Method `addRoute` of a node: adds a route with its handlers to the tree. -/
def node.addRoute (n : node) (path : GoString) (handlers : HandlersChain) : Except Fault node :=
  let n := node.mk n.path n.indices n.nType (n.priority + 1) n.children n.handlers n.fullPath
  if n.path.length = 0 ∧ n.children.length = 0 then do
    let n ← n.insertChild path path handlers
    .ok (.mk n.path n.indices .root n.priority n.children n.handlers n.fullPath)
  else n.addRouteWalk (path.length + 1) path path handlers 0

/-- Type `nodeValue`: what a lookup returns. -/
structure nodeValue where
  handlers : HandlersChain
  tsr : Bool
  fullPath : GoString

/-- The walk of `getValue`, one node per unit of the budget. With static routes only, no
node is ever skipped, so the places where the walk rolls back to a skipped node leave it
as it is. -/
def node.getValueWalk : Nat → node → GoString → Except Fault nodeValue
  | 0, _, _ => .error .outOfFuel
  | fuel + 1, n, path =>
    let pfx := n.path
    if pfx.length < path.length ∧ path.take pfx.length = pfx then
      let path := path.drop pfx.length
      let idxc := path.headD 0
      match indexByte n.indices idxc with
      | some i =>
        match n.children.get? i with
        | some child => node.getValueWalk fuel child path
        | none => .error (.panic "index out of range")
      | none => .ok { handlers := [], tsr := path = [47] ∧ n.hasHandlers, fullPath := [] }
    else if path = pfx then
      if n.hasHandlers then .ok { handlers := n.handlers, tsr := false, fullPath := n.fullPath }
      else if path = [47] ∧ n.nType = .static then .ok { handlers := [], tsr := true, fullPath := [] }
      else
        match indexByte n.indices 47 with
        | some i =>
          match n.children.get? i with
          | some child =>
            .ok { handlers := [], tsr := child.path.length = 1 ∧ child.hasHandlers, fullPath := [] }
          | none => .error (.panic "index out of range")
        | none => .ok { handlers := [], tsr := false, fullPath := [] }
    else
      .ok { handlers := [],
            tsr := path = [47] ∨ (pfx.length = path.length + 1 ∧ pfx.get? path.length = some 47
              ∧ path = pfx.take (pfx.length - 1) ∧ n.hasHandlers),
            fullPath := [] }

/-- Method `getValue` of a node: the handlers registered for the path, or whether a route
exists for the path with a trailing slash added or removed (`tsr`). -/
def node.getValue (n : node) (path : GoString) : Except Fault nodeValue :=
  n.getValueWalk (path.length + 2) path

/-! ## gin: the engine (`gin.go`, `routergroup.go`) -/

/-- Type `methodTree`. -/
structure methodTree where
  method : GoString
  root : node

/-- The modes of gin; the mode is a package variable, kept here with the engine. -/
inductive Mode where
  | debug
  | release
  | test
  deriving DecidableEq, Repr

/-- The fields of `gin.Engine` that decide a response. `Handlers` is the middleware of
the root group, which is also the chain run for an unmatched request (`allNoRoute` and
`allNoMethod`, no handler being set with `NoRoute` or `NoMethod`). -/
structure Engine where
  Handlers : HandlersChain
  basePath : GoString
  RedirectTrailingSlash : Bool
  HandleMethodNotAllowed : Bool
  trees : List methodTree
  mode : Mode

/-- Function `gin.New`. -/
def New (mode : Mode) : Engine :=
  { Handlers := [], basePath := [47], RedirectTrailingSlash := true,
    HandleMethodNotAllowed := false, trees := [], mode := mode }

/-- Method `Use` of the engine. -/
def Engine.Use (engine : Engine) (middleware : HandlersChain) : Engine :=
  { engine with Handlers := engine.Handlers ++ middleware }

/-- Function `gin.Default`: a new engine with the Logger and Recovery middleware. -/
def Default (mode : Mode) : Engine := (New mode).Use [Logger, Recovery]

/-- Replaces the root stored for a method. -/
def setRoot (method : GoString) (root : node) : List methodTree → List methodTree
  | [] => []
  | t :: rest =>
    if t.method = method then { t with root := root } :: rest else t :: setRoot method root rest

/-- Method `addRoute` of the engine. -/
def Engine.addRoute (engine : Engine) (method path : GoString) (handlers : HandlersChain) :
    Except Fault Engine :=
  if path.head? ≠ some 47 then .error (.panic "path must begin with '/'")
  else if method = [] then .error (.panic "HTTP method can not be empty")
  else if handlers.length = 0 then .error (.panic "there must be at least one handler")
  else
    match engine.trees.find? (fun t => t.method = method) with
    | some t => do
      let root ← t.root.addRoute path handlers
      .ok { engine with trees := setRoot method root engine.trees }
    | none => do
      let root ← (node.mk [] [] .static 0 [] [] [47]).addRoute path handlers
      .ok { engine with trees := engine.trees ++ [{ method := method, root := root }] }

/-- Method `handle` of the root group: the absolute path, the middleware followed by the
handlers of the route (fewer than `abortIndex`, 63), then `addRoute`. -/
def Engine.handle (engine : Engine) (httpMethod relativePath : GoString)
    (handlers : HandlersChain) : Except Fault Engine :=
  let absolutePath := joinPaths engine.basePath relativePath
  let chain := engine.Handlers ++ handlers
  if 63 ≤ chain.length then .error (.panic "too many handlers")
  else engine.addRoute httpMethod absolutePath chain

/-- Method `GET` of the root group. -/
def Engine.GET (engine : Engine) (relativePath : String) (handlers : HandlersChain) :
    Except Fault Engine :=
  engine.handle (bytes "GET") (bytes relativePath) handlers

/-- Keeps letters, digits, slash and hyphen (`regSafePrefix` removes every other byte). -/
def safePrefixBytes (s : GoString) : GoString :=
  s.filter fun c => (97 ≤ c ∧ c ≤ 122) ∨ (65 ≤ c ∧ c ≤ 90) ∨ (48 ≤ c ∧ c ≤ 57) ∨ c = 47 ∨ c = 45

/-- Replaces each run of two or more slashes by one slash (`regRemoveRepeatedChar`). -/
def removeRepeatedSlash : GoString → GoString
  | 47 :: 47 :: rest => removeRepeatedSlash (47 :: rest)
  | c :: rest => c :: removeRepeatedSlash rest
  | [] => []

/-- The path `redirectTrailingSlash` stores in the request: the path with the trailing
slash added or removed, behind the sanitised `X-Forwarded-Prefix` when there is one. -/
def trailingSlashPath (req : Request) : GoString :=
  let p := req.URL.Path
  let pfx := pathClean (req.Header.Get (bytes "X-Forwarded-Prefix"))
  let p := if pfx ≠ [46] then removeRepeatedSlash (safePrefixBytes pfx) ++ [47] ++ req.URL.Path else p
  if 1 < p.length ∧ lastChar p = some 47 then p.take (p.length - 1) else p ++ [47]

/-- Function `redirectRequest`: 301 for GET and 307 otherwise, the debug line in debug
mode, then `http.Redirect` with the string of the request URL. The call is recorded with
its code and the request URL; what net/http writes for it (Location after `path.Clean`,
a `text/html` note for GET) is not produced here. -/
def redirectRequest (mode : Mode) (c : Context) : Context :=
  let req := c.Request
  let code := if req.Method ≠ bytes "GET" then 307 else 301
  let out := if mode = .debug then c.out ++ [LogEntry.redirecting code req.URL.Path req.URL] else c.out
  let w := { c.writermem.WriteHeader code with redirect := some (code, req.URL) }
  { c with out := out, writermem := w.WriteHeaderNow }

/-- Function `redirectTrailingSlash`. -/
def redirectTrailingSlash (mode : Mode) (c : Context) : Context :=
  let req := c.Request
  let req := { req with URL := { req.URL with Path := trailingSlashPath req } }
  redirectRequest mode { c with Request := req }

/-- Function `serveError`: the status, the chain, and the default body under Content-Type
`text/plain` when nothing was written and the status was not changed. -/
def serveError (c : Context) (handlers : HandlersChain) (code : Nat) (defaultMessage : GoString) :
    Context :=
  let c := { c with writermem := { c.writermem with status := code } }
  let c := runChain handlers c
  if c.writermem.Written then c
  else if c.writermem.status = code then
    let w := { c.writermem with header := c.writermem.header.Set (bytes "Content-Type") (bytes "text/plain") }
    { c with writermem := w.Write defaultMessage }
  else { c with writermem := c.writermem.WriteHeaderNow }

/-- The methods other than `httpMethod` under which the path has handlers. -/
def allowedMethods (httpMethod rPath : GoString) : List methodTree → Except Fault (List GoString)
  | [] => .ok []
  | t :: rest => do
    let more ← allowedMethods httpMethod rPath rest
    if t.method = httpMethod then .ok more
    else
      let value ← t.root.getValue rPath
      .ok (if value.handlers.isEmpty then more else t.method :: more)

/-- Method `handleHTTPRequest` of the engine. -/
def Engine.handleHTTPRequest (engine : Engine) (c : Context) : Except Fault Context := do
  let httpMethod := c.Request.Method
  let rPath := c.Request.URL.Path
  let notFound : Except Fault Context := do
    let allowed ← if engine.HandleMethodNotAllowed ∧ 0 < engine.trees.length then
        allowedMethods httpMethod rPath engine.trees else .ok []
    if 0 < allowed.length then
      let w := { c.writermem with header := c.writermem.header.Set (bytes "Allow") (joinWith (bytes ", ") allowed) }
      .ok (serveError { c with writermem := w } engine.Handlers 405 (bytes "405 method not allowed"))
    else .ok (serveError c engine.Handlers 404 (bytes "404 page not found"))
  match engine.trees.find? (fun t => t.method = httpMethod) with
  | some t =>
    let value ← t.root.getValue rPath
    if !value.handlers.isEmpty then
      let c := runChain value.handlers c
      .ok { c with writermem := c.writermem.WriteHeaderNow }
    else if httpMethod ≠ bytes "CONNECT" ∧ rPath ≠ [47] ∧ value.tsr ∧ engine.RedirectTrailingSlash then
      .ok (redirectTrailingSlash engine.mode c)
    else notFound
  | none => notFound

/-- Method `ServeHTTP` of the engine: a context with a reset writer, the request handled,
the response and what was printed. -/
def Engine.ServeHTTP (engine : Engine) (req : Request) (out : List LogEntry) :
    Except Fault (Response × List LogEntry) := do
  let c ← engine.handleHTTPRequest { Request := req, writermem := responseWriter.reset, out := out }
  .ok (c.writermem.result, c.out)

/-! ## The program: `cmd/main.go` and `cmd/main_test.go` -/

/-- Constant `http.StatusOK`. -/
def StatusOK : Nat := 200

/-- Constant `http.StatusNotFound`. -/
def StatusNotFound : Nat := 404

/-- The router of `main`: `gin.Default()` and the four GET routes, in the order of the
source. The mode is debug, the default of gin. -/
def main : Except Fault Engine := do
  let r := Default .debug
  let r ← r.GET "/" [.handler fun c => c.String StatusOK (bytes "Welcome to the Go Gin Web App!")]
  let r ← r.GET "/healthz" [.handler fun c => c.String StatusOK (bytes "I am healthy!")]
  let r ← r.GET "/ready" [.handler fun c => c.String StatusOK (bytes "I am ready!")]
  let r ← r.GET "/ping" [.handler fun c => c.JSON StatusOK [(bytes "message", .str (bytes "pong"))]]
  .ok r

/-- The router of `setupRouter` in the test file: test mode, `gin.Default()` and three
GET routes. -/
def setupRouter : Except Fault Engine := do
  let r := Default .test
  let r ← r.GET "/" [.handler fun c => c.String StatusOK (bytes "Welcome to the Go Gin Web App!")]
  let r ← r.GET "/healthz" [.handler fun c => c.String StatusOK (bytes "I am healthy!")]
  let r ← r.GET "/ping" [.handler fun c => c.JSON StatusOK [(bytes "message", .str (bytes "pong"))]]
  .ok r

/-- The server of `main`: `r.Run` hands each request to `ServeHTTP` of the router. -/
def mainServe (req : Request) (out : List LogEntry) : Except Fault (Response × List LogEntry) := do
  let r ← main
  r.ServeHTTP req out

/-- A request served by the router of `setupRouter`, as the tests do with a recorder. -/
def testServe (req : Request) (out : List LogEntry) : Except Fault (Response × List LogEntry) := do
  let r ← setupRouter
  r.ServeHTTP req out

/-- The server answering the same request `n` times in a row: the responses in order, and
what has been printed. -/
def serveTimes (serve : Request → List LogEntry → Except Fault (Response × List LogEntry)) :
    Nat → Request → List LogEntry → Except Fault (List Response × List LogEntry)
  | 0, _, out => .ok ([], out)
  | n + 1, req, out => do
    let (r, out) ← serve req out
    let (rs, out) ← serveTimes serve n req out
    .ok (r :: rs, out)

/-- Function `iterate` of gin `gin.go`: the routes below a node, each with its method and
full path. The budget bounds the depth. -/
def iterate : Nat → GoString → GoString → node → Except Fault (List (GoString × GoString))
  | 0, _, _, _ => .error .outOfFuel
  | fuel + 1, path, method, root => do
    let path := path ++ root.path
    let own := if 0 < root.handlers.length then [(method, path)] else []
    root.children.foldlM
      (fun routes child => do
        let more ← iterate fuel path method child
        .ok (routes ++ more))
      own

/-- Method `Routes` of the engine: the registered routes as (method, path) pairs. A tree
is no deeper than the priority of its root. -/
def Engine.Routes (engine : Engine) : Except Fault (List (GoString × GoString)) :=
  engine.trees.foldlM
    (fun routes t => do
      let more ← iterate (t.root.priority + 1) [] t.method t.root
      .ok (routes ++ more))
    []

/-! ## JSON texts

What it means for a body to be a JSON text standing for a value (RFC 8259); used to read
the body of `/ping` back. -/

/-- A JSON value (RFC 8259); a number is kept as its text. -/
inductive JSON where
  | null
  | bool (b : Bool)
  | number (text : GoString)
  | string (s : GoString)
  | array (items : List JSON)
  | object (members : List (GoString × JSON))

/-- Drops leading JSON white space. -/
def skipSpace : GoString → GoString
  | c :: rest => if c = 32 ∨ c = 9 ∨ c = 10 ∨ c = 13 then skipSpace rest else c :: rest
  | [] => []

/-- Value of a hexadecimal digit. -/
def hexValue (c : Nat) : Option Nat :=
  if 48 ≤ c ∧ c ≤ 57 then some (c - 48)
  else if 97 ≤ c ∧ c ≤ 102 then some (c - 87)
  else if 65 ≤ c ∧ c ≤ 70 then some (c - 55)
  else none

/-- UTF-8 bytes of a code point below 0x10000. -/
def utf8Encode (cp : Nat) : GoString :=
  if cp < 128 then [cp]
  else if cp < 2048 then [192 + cp / 64, 128 + cp % 64]
  else [224 + cp / 4096, 128 + cp / 64 % 64, 128 + cp % 64]

/-- The byte a two-character escape stands for. -/
def unescapeByte (e : Nat) : Option Nat :=
  if e = 34 ∨ e = 92 ∨ e = 47 then some e
  else if e = 98 then some 8
  else if e = 102 then some 12
  else if e = 110 then some 10
  else if e = 114 then some 13
  else if e = 116 then some 9
  else none

/-- The characters of a JSON string after its opening quote, up to the closing quote:
the bytes they stand for and the rest of the input. An escape of a surrogate half is not
accepted. -/
def parseChars : Nat → GoString → GoString → Option (GoString × GoString)
  | 0, _, _ => none
  | _ + 1, [], _ => none
  | fuel + 1, c :: rest, acc =>
    if c = 34 then some (acc, rest)
    else if c = 92 then
      match rest with
      | 117 :: a :: b :: x :: d :: rest =>
        match hexValue a, hexValue b, hexValue x, hexValue d with
        | some a, some b, some x, some d =>
          let cp := ((a * 16 + b) * 16 + x) * 16 + d
          if 55296 ≤ cp ∧ cp < 57344 then none else parseChars fuel rest (acc ++ utf8Encode cp)
        | _, _, _, _ => none
      | e :: rest =>
        match unescapeByte e with
        | some b => parseChars fuel rest (acc ++ [b])
        | none => none
      | [] => none
    else if c < 32 then none
    else parseChars fuel rest (acc ++ [c])

/-- Splits off the leading decimal digits. -/
def spanDigits : GoString → GoString × GoString
  | c :: rest =>
    if 48 ≤ c ∧ c ≤ 57 then
      let (ds, rest) := spanDigits rest
      (c :: ds, rest)
    else ([], c :: rest)
  | [] => ([], [])

/-- A JSON number at the head of the input: its text and the rest. -/
def parseNumber (s : GoString) : Option (GoString × GoString) :=
  let (sign, s) := match s with
    | 45 :: rest => ([45], rest)
    | _ => ([], s)
  let (int, s) := spanDigits s
  if int = [] ∨ (int.head? = some 48 ∧ int.length ≠ 1) then none
  else
    let frac : Option (GoString × GoString) := match s with
      | 46 :: rest =>
        let (ds, rest) := spanDigits rest
        if ds = [] then none else some (46 :: ds, rest)
      | _ => some ([], s)
    match frac with
    | none => none
    | some (frac, s) =>
      match s with
      | e :: rest =>
        if e = 101 ∨ e = 69 then
          let (sg, rest) := match rest with
            | 43 :: r => ([43], r)
            | 45 :: r => ([45], r)
            | _ => ([], rest)
          let (ds, rest) := spanDigits rest
          if ds = [] then none else some (sign ++ int ++ frac ++ [e] ++ sg ++ ds, rest)
        else some (sign ++ int ++ frac, s)
      | [] => some (sign ++ int ++ frac, s)

mutual
/-- A JSON value at the head of the input (white space already skipped). -/
def parseValue : Nat → GoString → Option (JSON × GoString)
  | 0, _ => none
  | fuel + 1, s =>
    match s with
    | 123 :: rest =>
      match skipSpace rest with
      | 125 :: rest => some (.object [], rest)
      | rest => parseMembers fuel rest []
    | 91 :: rest =>
      match skipSpace rest with
      | 93 :: rest => some (.array [], rest)
      | rest => parseElements fuel rest []
    | 34 :: rest =>
      match parseChars rest.length rest [] with
      | some (str, rest) => some (.string str, rest)
      | none => none
    | 116 :: 114 :: 117 :: 101 :: rest => some (.bool true, rest)
    | 102 :: 97 :: 108 :: 115 :: 101 :: rest => some (.bool false, rest)
    | 110 :: 117 :: 108 :: 108 :: rest => some (.null, rest)
    | _ =>
      match parseNumber s with
      | some (text, rest) => some (.number text, rest)
      | none => none
/-- The members of an object from the first one on, up to the closing brace. -/
def parseMembers : Nat → GoString → List (GoString × JSON) → Option (JSON × GoString)
  | 0, _, _ => none
  | fuel + 1, s, acc =>
    match s with
    | 34 :: rest =>
      match parseChars rest.length rest [] with
      | some (key, rest) =>
        match skipSpace rest with
        | 58 :: rest =>
          match parseValue fuel (skipSpace rest) with
          | some (v, rest) =>
            match skipSpace rest with
            | 44 :: rest => parseMembers fuel (skipSpace rest) (acc ++ [(key, v)])
            | 125 :: rest => some (.object (acc ++ [(key, v)]), rest)
            | _ => none
          | none => none
        | _ => none
      | none => none
    | _ => none
/-- The elements of an array from the first one on, up to the closing bracket. -/
def parseElements : Nat → GoString → List JSON → Option (JSON × GoString)
  | 0, _, _ => none
  | fuel + 1, s, acc =>
    match parseValue fuel s with
    | some (v, rest) =>
      match skipSpace rest with
      | 44 :: rest => parseElements fuel (skipSpace rest) (acc ++ [v])
      | 93 :: rest => some (.array (acc ++ [v]), rest)
      | _ => none
    | none => none
end

/-- The JSON value a text stands for, if it is a JSON text. -/
def parseJSON (s : GoString) : Option JSON :=
  match parseValue (s.length + 1) (skipSpace s) with
  | some (v, rest) => if skipSpace rest = [] then some v else none
  | none => none

/-! ## The two routers, written out

The trees and engines the two functions build, and their answers as route tables; the
theorems below show that the functions build and answer exactly these. -/

/-- The chain registered for `/` by both functions. -/
def homeChain : HandlersChain :=
  [Logger, Recovery, .handler fun c => c.String StatusOK (bytes "Welcome to the Go Gin Web App!")]

/-- The chain registered for `/healthz` by both functions. -/
def healthzChain : HandlersChain :=
  [Logger, Recovery, .handler fun c => c.String StatusOK (bytes "I am healthy!")]

/-- The chain registered for `/ready` by `main`. -/
def readyChain : HandlersChain :=
  [Logger, Recovery, .handler fun c => c.String StatusOK (bytes "I am ready!")]

/-- The chain registered for `/ping` by both functions. -/
def pingChain : HandlersChain :=
  [Logger, Recovery, .handler fun c => c.JSON StatusOK [(bytes "message", .str (bytes "pong"))]]

/-- The GET tree `main` builds. -/
def mainTree : node :=
  .mk [47] [104, 114, 112] .root 4
    [.mk [104, 101, 97, 108, 116, 104, 122] [] .static 1 [] healthzChain
        [47, 104, 101, 97, 108, 116, 104, 122],
     .mk [114, 101, 97, 100, 121] [] .static 1 [] readyChain [47, 114, 101, 97, 100, 121],
     .mk [112, 105, 110, 103] [] .static 1 [] pingChain [47, 112, 105, 110, 103]]
    homeChain [47]

/-- The GET tree `setupRouter` builds. -/
def testTree : node :=
  .mk [47] [104, 112] .root 3
    [.mk [104, 101, 97, 108, 116, 104, 122] [] .static 1 [] healthzChain
        [47, 104, 101, 97, 108, 116, 104, 122],
     .mk [112, 105, 110, 103] [] .static 1 [] pingChain [47, 112, 105, 110, 103]]
    homeChain [47]

/-- The engine `main` builds. -/
def mainEngine : Engine :=
  { Handlers := [Logger, Recovery], basePath := [47], RedirectTrailingSlash := true,
    HandleMethodNotAllowed := false, trees := [{ method := bytes "GET", root := mainTree }],
    mode := .debug }

/-- The engine `setupRouter` builds. -/
def testEngine : Engine :=
  { Handlers := [Logger, Recovery], basePath := [47], RedirectTrailingSlash := true,
    HandleMethodNotAllowed := false, trees := [{ method := bytes "GET", root := testTree }],
    mode := .test }

/-- What a lookup in the GET tree of `main` returns, path by path. -/
def mainLookup (path : GoString) : nodeValue :=
  if path = [47] then { handlers := homeChain, tsr := false, fullPath := [47] }
  else if path = [47, 104, 101, 97, 108, 116, 104, 122] then
    { handlers := healthzChain, tsr := false, fullPath := [47, 104, 101, 97, 108, 116, 104, 122] }
  else if path = [47, 114, 101, 97, 100, 121] then
    { handlers := readyChain, tsr := false, fullPath := [47, 114, 101, 97, 100, 121] }
  else if path = [47, 112, 105, 110, 103] then
    { handlers := pingChain, tsr := false, fullPath := [47, 112, 105, 110, 103] }
  else
    { handlers := [],
      tsr := decide (path = [] ∨ path = [47, 47] ∨ path = [47, 104, 101, 97, 108, 116, 104, 122, 47]
        ∨ path = [47, 114, 101, 97, 100, 121, 47] ∨ path = [47, 112, 105, 110, 103, 47]),
      fullPath := [] }

/-- What a lookup in the GET tree of `setupRouter` returns, path by path. -/
def testLookup (path : GoString) : nodeValue :=
  if path = [47] then { handlers := homeChain, tsr := false, fullPath := [47] }
  else if path = [47, 104, 101, 97, 108, 116, 104, 122] then
    { handlers := healthzChain, tsr := false, fullPath := [47, 104, 101, 97, 108, 116, 104, 122] }
  else if path = [47, 112, 105, 110, 103] then
    { handlers := pingChain, tsr := false, fullPath := [47, 112, 105, 110, 103] }
  else
    { handlers := [],
      tsr := decide (path = [] ∨ path = [47, 47] ∨ path = [47, 104, 101, 97, 108, 116, 104, 122, 47]
        ∨ path = [47, 112, 105, 110, 103, 47]),
      fullPath := [] }

/-- The answer of gin to an unmatched request. -/
def notFoundResponse : Response :=
  .wrote 404 [(bytes "Content-Type", bytes "text/plain")] (bytes "404 page not found")

/-- The answer of a `c.String(http.StatusOK, body)` handler. -/
def textResponse (body : String) : Response :=
  .wrote 200 [(bytes "Content-Type", bytes "text/plain; charset=utf-8")] (bytes body)

/-- The answer of the `/ping` handler. -/
def pongResponse : Response :=
  .wrote 200 [(bytes "Content-Type", bytes "application/json; charset=utf-8")]
    (bytes "\x7b\"message\":\"pong\"\x7d")

/-- The answer to a request redirected for its trailing slash. -/
def slashRedirect (req : Request) : Response :=
  .redirected (if req.Method ≠ bytes "GET" then 307 else 301)
    { Path := trailingSlashPath req, RawQuery := req.URL.RawQuery }

/-- The paths the GET tree of `main` asks a redirect for. -/
def mainSlashPaths : List GoString :=
  [[], bytes "//", bytes "/healthz/", bytes "/ready/", bytes "/ping/"]

/-- The paths the GET tree of `setupRouter` asks a redirect for. -/
def testSlashPaths : List GoString :=
  [[], bytes "//", bytes "/healthz/", bytes "/ping/"]

/-- The route table of `main` as a function of the request. -/
def mainAnswer (req : Request) : Response :=
  if req.Method = bytes "GET" then
    if req.URL.Path = bytes "/" then textResponse "Welcome to the Go Gin Web App!"
    else if req.URL.Path = bytes "/healthz" then textResponse "I am healthy!"
    else if req.URL.Path = bytes "/ready" then textResponse "I am ready!"
    else if req.URL.Path = bytes "/ping" then pongResponse
    else if req.URL.Path ∈ mainSlashPaths then slashRedirect req
    else notFoundResponse
  else notFoundResponse

/-- The route table of `setupRouter` as a function of the request. -/
def testAnswer (req : Request) : Response :=
  if req.Method = bytes "GET" then
    if req.URL.Path = bytes "/" then textResponse "Welcome to the Go Gin Web App!"
    else if req.URL.Path = bytes "/healthz" then textResponse "I am healthy!"
    else if req.URL.Path = bytes "/ping" then pongResponse
    else if req.URL.Path ∈ testSlashPaths then slashRedirect req
    else notFoundResponse
  else notFoundResponse

/-- The media type of a Content-Type value written in lower case without leading space:
what stands before the first semicolon. -/
def mediaType (value : GoString) : GoString := value.takeWhile (fun c => c ≠ 59)

/-! ## Lookup in the two trees and the answers of the two routers -/

theorem hasHandlers_mk (p i : GoString) (t : nodeType) (pr : Nat) (cs : List node)
    (h : HandlersChain) (f : GoString) (hh : h ≠ []) : (node.mk p i t pr cs h f).hasHandlers = true := by
  cases h with
  | nil => exact absurd rfl hh
  | cons a as => rfl

/-- Lookup at a leaf reached through its index byte: the leaf path is found, the leaf
path followed by a slash asks for a redirect, anything else is not found. -/
theorem leaf_getValueWalk (k : Nat) (p : GoString) (t : nodeType) (pr : Nat) (h : HandlersChain)
    (f path : GoString) (hh : h ≠ []) (hp : p.getLast? ≠ some 47) (hne : path ≠ [47]) :
    (node.mk p [] t pr [] h f).getValueWalk (k + 1) path
      = .ok (if path = p then { handlers := h, tsr := false, fullPath := f }
             else { handlers := [], tsr := decide (path = p ++ [47]), fullPath := [] }) := by
  have hH := hasHandlers_mk p [] t pr [] h f hh
  unfold node.getValueWalk
  simp only [node.path, node.indices, node.children, node.handlers, node.fullPath, node.nType]
  by_cases h1 : p.length < path.length ∧ List.take p.length path = p
  · rw [if_pos h1]
    have hlen : path ≠ p := by
      intro e; rw [e] at h1; exact absurd h1.1 (Nat.lt_irrefl _)
    have hsplit : path = p ++ path.drop p.length := by
      conv_lhs => rw [← List.take_append_drop p.length path, h1.2]
    simp only [indexByte, if_neg hlen, hH]
    congr 2
    simp only [and_true, decide_eq_decide]
    constructor
    · intro e; rw [hsplit, e]
    · intro e
      have := hsplit.symm.trans e
      exact List.append_cancel_left this
  · rw [if_neg h1]
    by_cases h2 : path = p
    · subst h2
      simp [hH]
    · rw [if_neg h2, if_neg h2]
      congr 2
      have hno : ¬ (path = p ++ [47]) := by
        intro e
        apply h1
        subst e
        simp
      simp only [hne, false_or, hno, decide_False, decide_eq_false_iff_not, not_and]
      intro hl hg
      exfalso
      apply hp
      rw [List.getLast?_eq_getElem?, ← hg, List.get?_eq_getElem?]
      congr 1
      omega

theorem main_eq : main = .ok mainEngine := rfl

theorem setupRouter_eq : setupRouter = .ok testEngine := rfl

theorem mainTree_getValueWalk (k : Nat) (path : GoString) :
    mainTree.getValueWalk (k + 2) path = .ok (mainLookup path) := by
  rcases path with _ | ⟨c, rest⟩
  · rfl
  · by_cases hc : c = 47
    · subst hc
      rcases rest with _ | ⟨d, rest⟩
      · rfl
      · unfold node.getValueWalk
        simp only [mainTree, node.path, node.indices, node.children, node.handlers,
          node.fullPath, node.nType]
        by_cases h1 : d = 104
        · subst h1
          simp [indexByte, leaf_getValueWalk, healthzChain, mainLookup]
        · by_cases h2 : d = 114
          · subst h2
            simp [indexByte, leaf_getValueWalk, readyChain, mainLookup]
          · by_cases h3 : d = 112
            · subst h3
              simp [indexByte, leaf_getValueWalk, pingChain, mainLookup]
            · have e1 : ¬ 104 = d := fun e => h1 e.symm
              have e2 : ¬ 114 = d := fun e => h2 e.symm
              have e3 : ¬ 112 = d := fun e => h3 e.symm
              simp [indexByte, mainLookup, h1, h2, h3, e1, e2, e3, node.hasHandlers, node.handlers, homeChain]
    · unfold node.getValueWalk
      simp [mainTree, node.path, mainLookup, hc]

theorem testTree_getValueWalk (k : Nat) (path : GoString) :
    testTree.getValueWalk (k + 2) path = .ok (testLookup path) := by
  rcases path with _ | ⟨c, rest⟩
  · rfl
  · by_cases hc : c = 47
    · subst hc
      rcases rest with _ | ⟨d, rest⟩
      · rfl
      · unfold node.getValueWalk
        simp only [testTree, node.path, node.indices, node.children, node.handlers,
          node.fullPath, node.nType]
        by_cases h1 : d = 104
        · subst h1
          simp [indexByte, leaf_getValueWalk, healthzChain, testLookup]
        · by_cases h3 : d = 112
          · subst h3
            simp [indexByte, leaf_getValueWalk, pingChain, testLookup]
          · have e1 : ¬ 104 = d := fun e => h1 e.symm
            have e3 : ¬ 112 = d := fun e => h3 e.symm
            simp [indexByte, testLookup, h1, h3, e1, e3, node.hasHandlers, node.handlers, homeChain]
    · unfold node.getValueWalk
      simp [testTree, node.path, testLookup, hc]

theorem mainTree_getValue (path : GoString) : mainTree.getValue path = .ok (mainLookup path) :=
  mainTree_getValueWalk path.length path

theorem testTree_getValue (path : GoString) : testTree.getValue path = .ok (testLookup path) :=
  testTree_getValueWalk path.length path

theorem bytes_root : bytes "/" = [47] := by decide

theorem bytes_healthz : bytes "/healthz" = [47, 104, 101, 97, 108, 116, 104, 122] := by decide

theorem bytes_ready : bytes "/ready" = [47, 114, 101, 97, 100, 121] := by decide

theorem bytes_ping : bytes "/ping" = [47, 112, 105, 110, 103] := by decide

theorem bytes_slashes : bytes "//" = [47, 47] := by decide

theorem bytes_healthz_slash : bytes "/healthz/" = [47, 104, 101, 97, 108, 116, 104, 122, 47] := by
  decide

theorem bytes_ready_slash : bytes "/ready/" = [47, 114, 101, 97, 100, 121, 47] := by decide

theorem bytes_ping_slash : bytes "/ping/" = [47, 112, 105, 110, 103, 47] := by decide

theorem mainLookup_other (p : GoString) (h1 : p ≠ bytes "/") (h2 : p ≠ bytes "/healthz")
    (h3 : p ≠ bytes "/ready") (h4 : p ≠ bytes "/ping") :
    mainLookup p = { handlers := [], tsr := decide (p ∈ mainSlashPaths), fullPath := [] } := by
  simp only [bytes_root, bytes_healthz, bytes_ready, bytes_ping] at h1 h2 h3 h4
  simp [mainLookup, h1, h2, h3, h4, mainSlashPaths, bytes_slashes, bytes_healthz_slash,
    bytes_ready_slash, bytes_ping_slash]

theorem mainServe_fst (req : Request) (out : List LogEntry) :
    ∃ out', mainServe req out = .ok (mainAnswer req, out') := by
  obtain ⟨m, ⟨p, q⟩, hd⟩ := req
  by_cases hm : m = bytes "GET"
  · subst hm
    by_cases h1 : p = bytes "/"
    · subst h1; exact ⟨_, rfl⟩
    by_cases h2 : p = bytes "/healthz"
    · subst h2; exact ⟨_, rfl⟩
    by_cases h3 : p = bytes "/ready"
    · subst h3; exact ⟨_, rfl⟩
    by_cases h4 : p = bytes "/ping"
    · subst h4; exact ⟨_, rfl⟩
    by_cases h5 : p ∈ mainSlashPaths
    · simp only [mainSlashPaths, List.mem_cons, List.mem_singleton, List.not_mem_nil, or_false] at h5
      rcases h5 with rfl | rfl | rfl | rfl | rfl <;> exact ⟨_, rfl⟩
    · simp only [mainServe, main_eq, bind, Except.bind, Engine.ServeHTTP,
        Engine.handleHTTPRequest, mainEngine, List.find?, mainAnswer, decide_True,
        mainTree_getValue, mainLookup_other p h1 h2 h3 h4, h5, if_neg h1, if_neg h2, if_neg h3,
        if_neg h4, if_true, if_false, decide_False]
      simp
      rfl
  · simp only [mainServe, main_eq, bind, Except.bind, Engine.ServeHTTP,
        Engine.handleHTTPRequest, mainEngine, List.find?, mainAnswer, if_neg hm]
    have hm' : ¬ bytes "GET" = m := fun e => hm e.symm
    simp [hm']
    rfl

theorem testLookup_other (p : GoString) (h1 : p ≠ bytes "/") (h2 : p ≠ bytes "/healthz")
    (h4 : p ≠ bytes "/ping") :
    testLookup p = { handlers := [], tsr := decide (p ∈ testSlashPaths), fullPath := [] } := by
  simp only [bytes_root, bytes_healthz, bytes_ping] at h1 h2 h4
  simp [testLookup, h1, h2, h4, testSlashPaths, bytes_slashes, bytes_healthz_slash,
    bytes_ping_slash]

theorem testServe_fst (req : Request) (out : List LogEntry) :
    ∃ out', testServe req out = .ok (testAnswer req, out') := by
  obtain ⟨m, ⟨p, q⟩, hd⟩ := req
  by_cases hm : m = bytes "GET"
  · subst hm
    by_cases h1 : p = bytes "/"
    · subst h1; exact ⟨_, rfl⟩
    by_cases h2 : p = bytes "/healthz"
    · subst h2; exact ⟨_, rfl⟩
    by_cases h4 : p = bytes "/ping"
    · subst h4; exact ⟨_, rfl⟩
    by_cases h5 : p ∈ testSlashPaths
    · simp only [testSlashPaths, List.mem_cons, List.mem_singleton, List.not_mem_nil, or_false] at h5
      rcases h5 with rfl | rfl | rfl | rfl <;> exact ⟨_, rfl⟩
    · simp only [testServe, setupRouter_eq, bind, Except.bind, Engine.ServeHTTP,
        Engine.handleHTTPRequest, testEngine, List.find?, testAnswer, decide_True,
        testTree_getValue, testLookup_other p h1 h2 h4, h5, if_neg h1, if_neg h2,
        if_neg h4, if_true, if_false, decide_False]
      simp
      rfl
  · simp only [testServe, setupRouter_eq, bind, Except.bind, Engine.ServeHTTP,
        Engine.handleHTTPRequest, testEngine, List.find?, testAnswer, if_neg hm]
    have hm' : ¬ bytes "GET" = m := fun e => hm e.symm
    simp [hm']
    rfl

theorem serveTimes_main (req : Request) (n : Nat) (out : List LogEntry) :
    ∃ out', serveTimes mainServe n req out = .ok (List.replicate n (mainAnswer req), out') := by
  induction n generalizing out with
  | zero => exact ⟨out, rfl⟩
  | succ n ih =>
    obtain ⟨o1, h1⟩ := mainServe_fst req out
    obtain ⟨o2, h2⟩ := ih o1
    refine ⟨o2, ?_⟩
    simp only [serveTimes, h1, bind, Except.bind, h2, List.replicate_succ]

theorem mainAnswer_code (req req' : Request) (hm : req.Method = req'.Method)
    (hp : req.URL.Path = req'.URL.Path) : (mainAnswer req).Code = (mainAnswer req').Code := by
  unfold mainAnswer
  rw [← hm, ← hp]
  by_cases h : req.Method = bytes "GET"
  · have h' : req'.Method = bytes "GET" := hm ▸ h
    simp only [h, h', if_true, slashRedirect, ne_eq, not_true_eq_false, if_false]
    split_ifs <;> rfl
  · simp only [h, if_false]

theorem mainAnswer_eq (req req' : Request) (hm : req.Method = req'.Method)
    (hp : req.URL.Path = req'.URL.Path)
    (hn : ¬ (req.Method = bytes "GET" ∧ req.URL.Path ∈ mainSlashPaths)) :
    mainAnswer req = mainAnswer req' := by
  unfold mainAnswer
  rw [← hm, ← hp]
  by_cases h : req.Method = bytes "GET"
  · have hs : req.URL.Path ∉ mainSlashPaths := fun hs => hn ⟨h, hs⟩
    simp only [h, if_true, hs, if_false]
  · simp only [h, if_false]

theorem answers_agree_iff (req : Request) :
    mainAnswer req = testAnswer req ↔
      ¬ (req.Method = bytes "GET"
          ∧ (req.URL.Path = bytes "/ready" ∨ req.URL.Path = bytes "/ready/")) := by
  obtain ⟨m, ⟨p, q⟩, hd⟩ := req
  dsimp only
  by_cases hm : m = bytes "GET"
  · subst hm
    by_cases h1 : p = bytes "/"
    · subst h1; exact ⟨fun _ => by decide, fun _ => rfl⟩
    by_cases h2 : p = bytes "/healthz"
    · subst h2; exact ⟨fun _ => by decide, fun _ => rfl⟩
    by_cases h4 : p = bytes "/ping"
    · subst h4; exact ⟨fun _ => by decide, fun _ => rfl⟩
    by_cases h3 : p = bytes "/ready"
    · subst h3
      have e1 : mainAnswer ⟨bytes "GET", ⟨bytes "/ready", q⟩, hd⟩ = textResponse "I am ready!" := rfl
      have e2 : testAnswer ⟨bytes "GET", ⟨bytes "/ready", q⟩, hd⟩ = notFoundResponse := rfl
      rw [e1, e2]
      exact ⟨fun h => absurd h (by decide), fun h => absurd ⟨rfl, Or.inl rfl⟩ h⟩
    by_cases h6 : p = bytes "/ready/"
    · subst h6
      have e1 : mainAnswer ⟨bytes "GET", ⟨bytes "/ready/", q⟩, hd⟩
          = slashRedirect ⟨bytes "GET", ⟨bytes "/ready/", q⟩, hd⟩ := rfl
      have e2 : testAnswer ⟨bytes "GET", ⟨bytes "/ready/", q⟩, hd⟩ = notFoundResponse := rfl
      rw [e1, e2]
      refine ⟨fun h => ?_, fun h => absurd ⟨rfl, Or.inr rfl⟩ h⟩
      simp [slashRedirect, notFoundResponse] at h
    · have hiff : p ∈ mainSlashPaths ↔ p ∈ testSlashPaths := by
        simp only [mainSlashPaths, testSlashPaths, List.mem_cons, List.mem_singleton,
          List.not_mem_nil, or_false, h6, false_or]
      have hmem : decide (p ∈ mainSlashPaths) = decide (p ∈ testSlashPaths) := by
        simp only [hiff]
      constructor
      · rintro - ⟨-, h | h⟩
        · exact h3 h
        · exact h6 h
      · intro _
        simp only [mainAnswer, testAnswer, if_true, if_neg h1, if_neg h2, if_neg h3, if_neg h4]
        by_cases hs : p ∈ testSlashPaths
        · rw [if_pos hs, if_pos (hiff.mpr hs)]
        · rw [if_neg hs, if_neg (fun h => hs (hiff.mp h))]
  · simp [mainAnswer, testAnswer, hm]

theorem pathClean_empty : pathClean [] = [46] := by decide

theorem trailingSlashPath_plain (req : Request)
    (h : req.Header.Get (bytes "X-Forwarded-Prefix") = []) :
    trailingSlashPath req =
      if 1 < req.URL.Path.length ∧ lastChar req.URL.Path = some 47 then
        req.URL.Path.take (req.URL.Path.length - 1)
      else req.URL.Path ++ [47] := by
  simp only [trailingSlashPath, h, pathClean_empty, ne_eq, not_true_eq_false, if_false]

/-! ## The claims -/

/-- C1. Every GET request for the path `/` (whatever its query and header, whatever has
been served before) is answered by the router of `main` with status 200 and the body
`Welcome to the Go Gin Web App!`, byte for byte. -/
theorem home_route (rawQuery : GoString) (header : Header) (out : List LogEntry) :
    ∃ r out', mainServe ⟨bytes "GET", ⟨bytes "/", rawQuery⟩, header⟩ out = .ok (r, out')
      ∧ r.Code = StatusOK ∧ r.Body = some (bytes "Welcome to the Go Gin Web App!") :=
  ⟨textResponse "Welcome to the Go Gin Web App!", _, rfl, rfl, rfl⟩

/-- C2. Every GET request for the path `/ping` is answered by the router of `main` with
status 200, the Content-Type `application/json; charset=utf-8`, and a body that is a JSON
text standing for the object with the single member `message` of value `pong`. -/
theorem ping_route (rawQuery : GoString) (header : Header) (out : List LogEntry) :
    ∃ r out' body, mainServe ⟨bytes "GET", ⟨bytes "/ping", rawQuery⟩, header⟩ out = .ok (r, out')
      ∧ r.Code = StatusOK
      ∧ r.ContentType = some (bytes "application/json; charset=utf-8")
      ∧ r.Body = some body
      ∧ parseJSON body = some (.object [(bytes "message", .string (bytes "pong"))]) :=
  ⟨pongResponse, _, bytes "\x7b\"message\":\"pong\"\x7d", rfl, rfl, by decide, rfl, rfl⟩

/-- C3. Every GET request for the path `/healthz` is answered by the router of `main`
with status 200 and the body `I am healthy!`, byte for byte. -/
theorem healthz_route (rawQuery : GoString) (header : Header) (out : List LogEntry) :
    ∃ r out', mainServe ⟨bytes "GET", ⟨bytes "/healthz", rawQuery⟩, header⟩ out = .ok (r, out')
      ∧ r.Code = StatusOK ∧ r.Body = some (bytes "I am healthy!") :=
  ⟨textResponse "I am healthy!", _, rfl, rfl, rfl⟩

/-- C4. Every GET request for the path `/ready` is answered by the router of `main` with
status 200 and the body `I am ready!`, byte for byte. -/
theorem ready_route (rawQuery : GoString) (header : Header) (out : List LogEntry) :
    ∃ r out', mainServe ⟨bytes "GET", ⟨bytes "/ready", rawQuery⟩, header⟩ out = .ok (r, out')
      ∧ r.Code = StatusOK ∧ r.Body = some (bytes "I am ready!") :=
  ⟨textResponse "I am ready!", _, rfl, rfl, rfl⟩

/-- C5, as stated, fails: `/healthz/` is not one of the four registered paths, and the
router of `main` answers GET `/healthz/` with status 301, not 404. -/
theorem healthz_slash_is_redirected :
    bytes "/healthz/" ∉ [bytes "/", bytes "/healthz", bytes "/ready", bytes "/ping"]
      ∧ Except.map (fun a => a.1.Code) (mainServe ⟨bytes "GET", ⟨bytes "/healthz/", []⟩, []⟩ [])
          = .ok 301
      ∧ 301 ≠ StatusNotFound :=
  ⟨by decide, rfl, by decide⟩

/-- C5, amended. A request whose path is not one of the four registered paths is answered
by the router of `main` with status 404, unless it is a GET for the empty path, `//`,
`/healthz/`, `/ready/` or `/ping/`: that one is answered with status 301, a trailing-slash
redirect. When such a request carries no `X-Forwarded-Prefix` header, the redirect is to
the path without its last slash (`/healthz`, `/ready`, `/ping`, and `/` for `//`), to `/`
for the empty path, with the query kept. -/
theorem unregistered_path (req : Request) (out : List LogEntry)
    (hp : req.URL.Path ∉ [bytes "/", bytes "/healthz", bytes "/ready", bytes "/ping"]) :
    ∃ r out', mainServe req out = .ok (r, out')
      ∧ (req.Method = bytes "GET"
            ∧ req.URL.Path ∈ [[], bytes "//", bytes "/healthz/", bytes "/ready/", bytes "/ping/"] →
          r.Code = 301
            ∧ (req.Header.Get (bytes "X-Forwarded-Prefix") = [] →
                r = .redirected 301
                  ⟨if req.URL.Path = [] then bytes "/" else req.URL.Path.dropLast,
                    req.URL.RawQuery⟩))
      ∧ (¬ (req.Method = bytes "GET"
            ∧ req.URL.Path ∈ [[], bytes "//", bytes "/healthz/", bytes "/ready/", bytes "/ping/"]) →
          r.Code = StatusNotFound) := by
  obtain ⟨o, ho⟩ := mainServe_fst req out
  simp only [List.mem_cons, List.mem_singleton, List.not_mem_nil, or_false, not_or] at hp
  obtain ⟨h1, h2, h3, h4⟩ := hp
  refine ⟨mainAnswer req, o, ho, ?_, ?_⟩
  · rintro ⟨hm, hs⟩
    have hs' : req.URL.Path ∈ mainSlashPaths := hs
    have hr : mainAnswer req = .redirected 301 ⟨trailingSlashPath req, req.URL.RawQuery⟩ := by
      simp [mainAnswer, hm, h1, h2, h3, h4, hs', slashRedirect]
    refine ⟨by rw [hr]; rfl, fun hx => ?_⟩
    rw [hr, trailingSlashPath_plain req hx]
    simp only [List.mem_cons, List.mem_singleton, List.not_mem_nil, or_false] at hs
    rcases hs with h | h | h | h | h <;> rw [h] <;> rfl
  · intro hn
    by_cases hm : req.Method = bytes "GET"
    · have hs' : req.URL.Path ∉ mainSlashPaths := fun hs => hn ⟨hm, hs⟩
      simp only [mainAnswer, hm, h1, h2, h3, h4, hs', if_true, if_false]
      rfl
    · simp only [mainAnswer, hm, if_false]
      rfl

/-- The amended C5 at GET `/non-existent`, answered 404, and at GET `/ping/?x=1` without
header, redirected with 301 to `/ping?x=1`. -/
theorem unregistered_path_witness :
    (bytes "/non-existent" ∉ [bytes "/", bytes "/healthz", bytes "/ready", bytes "/ping"]
      ∧ ∃ r out', mainServe ⟨bytes "GET", ⟨bytes "/non-existent", []⟩, []⟩ [] = .ok (r, out')
        ∧ r.Code = StatusNotFound)
      ∧ (bytes "/ping/" ∉ [bytes "/", bytes "/healthz", bytes "/ready", bytes "/ping"]
        ∧ ∃ r out', mainServe ⟨bytes "GET", ⟨bytes "/ping/", bytes "x=1"⟩, []⟩ [] = .ok (r, out')
          ∧ r.Code = 301 ∧ r = .redirected 301 ⟨bytes "/ping", bytes "x=1"⟩) := by
  refine ⟨⟨by decide, ?_⟩, ⟨by decide, ?_⟩⟩
  · obtain ⟨r, o, h, _, h404⟩ :=
      unregistered_path ⟨bytes "GET", ⟨bytes "/non-existent", []⟩, []⟩ [] (by decide)
    exact ⟨r, o, h, h404 (by decide)⟩
  · obtain ⟨r, o, h, h301, _⟩ :=
      unregistered_path ⟨bytes "GET", ⟨bytes "/ping/", bytes "x=1"⟩, []⟩ [] (by decide)
    obtain ⟨hc, ht⟩ := h301 (by decide)
    exact ⟨r, o, h, hc, (ht (by decide)).trans (by decide)⟩

/-- C6. A request for one of the four registered paths with a method other than GET is
answered by the router of `main` with status 404. -/
theorem other_method_not_found (req : Request) (out : List LogEntry)
    (hp : req.URL.Path ∈ [bytes "/", bytes "/healthz", bytes "/ready", bytes "/ping"])
    (hm : req.Method ≠ bytes "GET") :
    ∃ r out', mainServe req out = .ok (r, out') ∧ r.Code = StatusNotFound := by
  have _ := hp
  obtain ⟨o, ho⟩ := mainServe_fst req out
  refine ⟨mainAnswer req, o, ho, ?_⟩
  simp only [mainAnswer, hm, if_false]
  rfl

/-- C6 at POST `/ping`. -/
theorem other_method_not_found_witness :
    ∃ r out', mainServe ⟨bytes "POST", ⟨bytes "/ping", []⟩, []⟩ [] = .ok (r, out')
      ∧ r.Code = StatusNotFound :=
  other_method_not_found ⟨bytes "POST", ⟨bytes "/ping", []⟩, []⟩ [] (by decide) (by decide)

/-- C7, as stated, fails in its second half: two GET requests for `/healthz/` that differ
only in their query are answered with redirects to different targets, so the response is
not a function of method and path alone. -/
theorem redirect_target_carries_query :
    Except.map Prod.fst (mainServe ⟨bytes "GET", ⟨bytes "/healthz/", []⟩, []⟩ [])
        = .ok (.redirected 301 ⟨bytes "/healthz", []⟩)
      ∧ Except.map Prod.fst (mainServe ⟨bytes "GET", ⟨bytes "/healthz/", bytes "a=1"⟩, []⟩ [])
        = .ok (.redirected 301 ⟨bytes "/healthz", bytes "a=1"⟩)
      ∧ Response.redirected 301 ⟨bytes "/healthz", []⟩
        ≠ Response.redirected 301 ⟨bytes "/healthz", bytes "a=1"⟩ :=
  ⟨rfl, rfl, by decide⟩

/-- C7, amended. Served `n` times in a row by the router of `main`, a request gets the
same response `r` each time, whatever was served before. A request with the same method
and path gets a response with the same status; it gets the same response unless the
request is a GET answered with a trailing-slash redirect (path empty, `//`, `/healthz/`,
`/ready/` or `/ping/`), whose target also carries the query and the `X-Forwarded-Prefix`
header. -/
theorem same_request_same_response (req req' : Request) (n : Nat) (out out' : List LogEntry)
    (hm : req.Method = req'.Method) (hp : req.URL.Path = req'.URL.Path) :
    ∃ r r' o o₁ o₂, mainServe req out = .ok (r, o)
      ∧ serveTimes mainServe n req out = .ok (List.replicate n r, o₁)
      ∧ mainServe req' out' = .ok (r', o₂)
      ∧ r.Code = r'.Code
      ∧ (¬ (req.Method = bytes "GET"
            ∧ req.URL.Path ∈ [[], bytes "//", bytes "/healthz/", bytes "/ready/", bytes "/ping/"]) →
          r = r') := by
  obtain ⟨o, ho⟩ := mainServe_fst req out
  obtain ⟨o₁, h₁⟩ := serveTimes_main req n out
  obtain ⟨o₂, h₂⟩ := mainServe_fst req' out'
  exact ⟨mainAnswer req, mainAnswer req', o, o₁, o₂, ho, h₁, h₂, mainAnswer_code req req' hm hp,
    fun hn => mainAnswer_eq req req' hm hp hn⟩

/-- The amended C7 at GET `/ping` served three times, against GET `/ping?x=1`. -/
theorem same_request_same_response_witness :
    ∃ r r' o o₁ o₂, mainServe ⟨bytes "GET", ⟨bytes "/ping", []⟩, []⟩ [] = .ok (r, o)
      ∧ serveTimes mainServe 3 ⟨bytes "GET", ⟨bytes "/ping", []⟩, []⟩ [] = .ok (List.replicate 3 r, o₁)
      ∧ mainServe ⟨bytes "GET", ⟨bytes "/ping", bytes "x=1"⟩, []⟩ [] = .ok (r', o₂)
      ∧ r.Code = r'.Code ∧ r = r' := by
  obtain ⟨r, r', o, o₁, o₂, h, h₁, h₂, hc, he⟩ :=
    same_request_same_response ⟨bytes "GET", ⟨bytes "/ping", []⟩, []⟩
      ⟨bytes "GET", ⟨bytes "/ping", bytes "x=1"⟩, []⟩ 3 [] [] rfl rfl
  exact ⟨r, r', o, o₁, o₂, h, h₁, h₂, hc, he (by decide)⟩

/-- C8. For each of the three text routes GET `/`, GET `/healthz` and GET `/ready`, the
Content-Type header of the response of the router of `main` is of media type `text/plain`;
its value is `text/plain; charset=utf-8`. -/
theorem text_routes_content_type (rawQuery : GoString) (header : Header) (out : List LogEntry) :
    (∃ r out' ct, mainServe ⟨bytes "GET", ⟨bytes "/", rawQuery⟩, header⟩ out = .ok (r, out')
        ∧ r.ContentType = some ct ∧ mediaType ct = bytes "text/plain"
        ∧ ct = bytes "text/plain; charset=utf-8")
      ∧ (∃ r out' ct, mainServe ⟨bytes "GET", ⟨bytes "/healthz", rawQuery⟩, header⟩ out = .ok (r, out')
        ∧ r.ContentType = some ct ∧ mediaType ct = bytes "text/plain"
        ∧ ct = bytes "text/plain; charset=utf-8")
      ∧ (∃ r out' ct, mainServe ⟨bytes "GET", ⟨bytes "/ready", rawQuery⟩, header⟩ out = .ok (r, out')
        ∧ r.ContentType = some ct ∧ mediaType ct = bytes "text/plain"
        ∧ ct = bytes "text/plain; charset=utf-8") :=
  ⟨⟨textResponse "Welcome to the Go Gin Web App!", _, bytes "text/plain; charset=utf-8", rfl,
      by decide, by decide, rfl⟩,
   ⟨textResponse "I am healthy!", _, bytes "text/plain; charset=utf-8", rfl,
      by decide, by decide, rfl⟩,
   ⟨textResponse "I am ready!", _, bytes "text/plain; charset=utf-8", rfl,
      by decide, by decide, rfl⟩⟩

/-- C9, as stated, fails: the path `/ready/` is not `/ready`, yet the router of `main`
answers GET `/ready/` with a 301 redirect and the router of `setupRouter` with 404. -/
theorem ready_slash_differs :
    bytes "/ready/" ≠ bytes "/ready"
      ∧ Except.map Prod.fst (mainServe ⟨bytes "GET", ⟨bytes "/ready/", []⟩, []⟩ [])
        = .ok (.redirected 301 ⟨bytes "/ready", []⟩)
      ∧ Except.map Prod.fst (testServe ⟨bytes "GET", ⟨bytes "/ready/", []⟩, []⟩ [])
        = .ok (.wrote 404 [(bytes "Content-Type", bytes "text/plain")] (bytes "404 page not found")) :=
  ⟨by decide, rfl, rfl⟩

/-- C9, amended. The router of `setupRouter` and the router of `main` answer every
request, and they give the same response except to GET `/ready` and GET `/ready/`, where
they differ: the test router registers only `/`, `/healthz` and `/ping`. -/
theorem routers_agree_iff (req : Request) (out out' : List LogEntry) :
    ∃ a b o o', mainServe req out = .ok (a, o) ∧ testServe req out' = .ok (b, o')
      ∧ (a = b ↔ ¬ (req.Method = bytes "GET"
            ∧ (req.URL.Path = bytes "/ready" ∨ req.URL.Path = bytes "/ready/"))) := by
  obtain ⟨o, ho⟩ := mainServe_fst req out
  obtain ⟨o', ho'⟩ := testServe_fst req out'
  exact ⟨mainAnswer req, testAnswer req, o, o', ho, ho', answers_agree_iff req⟩

/-- C10. The registration in `main` does not panic, and the engine it builds lists
exactly the four routes GET `/`, GET `/healthz`, GET `/ready`, GET `/ping`; they are
pairwise distinct, none of the paths holds a wildcard, and a request matches at most one
of them. -/
theorem main_routes_distinct :
    ∃ e, main = .ok e
      ∧ e.Routes = .ok [(bytes "GET", bytes "/"), (bytes "GET", bytes "/healthz"),
          (bytes "GET", bytes "/ready"), (bytes "GET", bytes "/ping")]
      ∧ [(bytes "GET", bytes "/"), (bytes "GET", bytes "/healthz"),
          (bytes "GET", bytes "/ready"), (bytes "GET", bytes "/ping")].Nodup
      ∧ (∀ route ∈ [(bytes "GET", bytes "/"), (bytes "GET", bytes "/healthz"),
          (bytes "GET", bytes "/ready"), (bytes "GET", bytes "/ping")],
          findWildcard route.2 = none)
      ∧ ∀ req : Request,
          ([(bytes "GET", bytes "/"), (bytes "GET", bytes "/healthz"),
            (bytes "GET", bytes "/ready"), (bytes "GET", bytes "/ping")].filter
              (fun route => route = (req.Method, req.URL.Path))).length ≤ 1 := by
  refine ⟨mainEngine, rfl, rfl, by decide, by decide, fun req => ?_⟩
  by_cases h1 : (bytes "GET", bytes "/") = (req.Method, req.URL.Path)
  · rw [← h1]; decide
  by_cases h2 : (bytes "GET", bytes "/healthz") = (req.Method, req.URL.Path)
  · rw [← h2]; decide
  by_cases h3 : (bytes "GET", bytes "/ready") = (req.Method, req.URL.Path)
  · rw [← h3]; decide
  by_cases h4 : (bytes "GET", bytes "/ping") = (req.Method, req.URL.Path)
  · rw [← h4]; decide
  simp [List.filter, h1, h2, h3, h4]

end WebApp
